import Mathlib

/-!
Shallow embedding of the `GET /mails` pagination endpoint of a NestJS
backend (repository `formation_ia_test_and_qa_backend`).

Embedded code:

* `src/mails/dto/pagination-params.dto.ts` — the request DTO whose two
  optional string fields carry an `IsNumberString` check (validator.js
  `isNumeric` with default options, i.e. the regex
  `^[+-]?([0-9]*[.])?[0-9]+$`);
* `src/mails/mails.service.ts`, `MailsService.getMailPaginated` — the
  variant with explicit `isNaN` and range checks (the second copy in the
  file, lines 93-153): JavaScript `parseInt(s, 10)` parsing of
  `take`/`skip`, defaulting (`take = 10`, `skip = 0`), range checks, and
  `Array.prototype.slice` over the module-level `mails` array;
* `src/mails/mails.controller.ts` together with the global
  `ValidationPipe` installed in `e2e/mails/mails.spec.ts` (line 19) — the
  request pipeline: DTO validation first (per-field messages on failure),
  then the service.

Modelling conventions: JavaScript numbers are modelled as `Int` (every
number reachable in this code is an integer; `NaN` is modelled by
`Option.none` from the parser), strings as `String`, thrown exceptions as
`Except` errors.  The module-level `mails` constant becomes an explicit
parameter of the service.  The two `InternalServerErrorException` paths of
the service cannot fire in the embedding (slicing a list and taking its
length never throw); the constructor is kept for fidelity.
-/

namespace MailsBackend

/-- Sender record, after `IUser` (`src/mails/interfaces/user.interface.ts`;
fields as used by the fixtures and the spec data model: optional id, name,
email, optional avatar src). -/
structure IUser where
  id : Option Int := none
  name : String
  email : String
  avatarSrc : Option String := none
  deriving Repr, DecidableEq

/-- Mail record, after `IMail` (`src/mails/interfaces/mail.interface.ts`). -/
structure IMail where
  id : Option Int := none
  unread : Option Bool := none
  «from» : IUser
  subject : String
  body : String
  date : String
  deriving Repr, DecidableEq

/-- Request DTO, after `PaginationParamsDto`
(`src/mails/dto/pagination-params.dto.ts`): two optional string query
parameters.  `none` models an absent (`undefined`) parameter. -/
structure PaginationParamsDto where
  take : Option String := none
  skip : Option String := none
  deriving Repr, DecidableEq

/-- Response DTO, after `GetMailsPaginatedResponseDto`: the requested
slice plus the total size of the source collection. -/
structure GetMailsPaginatedResponseDto where
  mails : List IMail
  totalCount : Nat
  deriving Repr, DecidableEq

/-- The NestJS 400 body carries `message: string | string[]`:
a plain string for a `BadRequestException('...')` thrown by the service,
an array of per-field messages from the `ValidationPipe`. -/
inductive ErrMessage where
  | single (m : String)
  | fields (ms : List String)
  deriving Repr, DecidableEq

/-- Surfaced HTTP errors of the endpoint (`BadRequestException` /
`InternalServerErrorException`). -/
inductive HttpError where
  | badRequest (m : ErrMessage)
  | internalServerError (m : String)
  deriving Repr, DecidableEq

/-- The four distinct `Error`s thrown inside the service's parsing
`try`-block (`mails.service.ts` lines 100-121), before the `catch` clause
collapses them into one `BadRequestException`.  Each constructor records
the offending value, as the thrown message does. -/
inductive ParseError where
  | invalidTake (s : String)
  | takeNotPositive (n : Int)
  | invalidSkip (s : String)
  | skipNegative (n : Int)
  deriving Repr, DecidableEq

/-- Returns `true` exactly on the two not-a-number parse errors (the spec's
`InvalidParameterError("take")` / `InvalidParameterError("skip")`). -/
def isInvalidParamError : ParseError → Bool
  | .invalidTake _ => true
  | .invalidSkip _ => true
  | _ => false

/-- Returns `true` exactly on the two range errors (the spec's
`InvalidRangeError`s). -/
def isRangeError : ParseError → Bool
  | .takeNotPositive _ => true
  | .skipNegative _ => true
  | _ => false

/-- The whitespace characters JavaScript `parseInt` strips from the front
of its argument (the common subset: space, tab, LF, CR, VT, FF). -/
def jsWhitespaceChars : List Char := [' ', '\t', '\n', '\r', '\x0b', '\x0c']

/-- Membership test for `jsWhitespaceChars`. -/
def isJsWhitespace (c : Char) : Bool := decide (c ∈ jsWhitespaceChars)

/-- Value of a list of decimal digit characters, most significant first. -/
def digitsToNat (ds : List Char) : Nat :=
  ds.foldl (fun acc c => 10 * acc + (c.toNat - '0'.toNat)) 0

/-- JavaScript `parseInt(s, 10)`: skip leading whitespace, read an
optional sign, then the longest prefix of decimal digits; `NaN` (here
`none`) when that prefix is empty, otherwise the signed value of the
prefix.  Trailing garbage is ignored, which is what truncates `"2.5"`
to `2`. -/
def jsParseInt (s : String) : Option Int :=
  match s.data.dropWhile isJsWhitespace with
  | [] => none
  | c :: rest =>
    let signAndDigits : Int × List Char :=
      if c = '-' then (-1, rest)
      else if c = '+' then (1, rest)
      else (1, c :: rest)
    let ds := signAndDigits.2.takeWhile Char.isDigit
    if ds.isEmpty then none
    else some (signAndDigits.1 * (digitsToNat ds : Int))

/-- validator.js `isNumeric` with default options, the check behind
`@IsNumberString({}, ...)`: the regex `^[+-]?([0-9]*[.])?[0-9]+$`.
After an optional sign the body is either a nonempty run of digits, or
`digits* '.' digits+`. -/
def isNumericString (s : String) : Bool :=
  let cs := s.data
  let body := if cs.head? = some '+' || cs.head? = some '-' then cs.tail else cs
  let rest := body.dropWhile Char.isDigit
  if rest.isEmpty then !(body.takeWhile Char.isDigit).isEmpty
  else rest.head? = some '.' && !rest.tail.isEmpty && rest.tail.all Char.isDigit

/-- The `ValidationPipe` pass over `PaginationParamsDto`: each field, in
declaration order, is skipped when absent (`@IsOptional`) and otherwise
checked by `IsNumberString`, contributing its configured message on
failure.  Returns the list of per-field messages; `[]` means the request
reaches the controller. -/
def validatePaginationParams (q : PaginationParamsDto) : List String :=
  (match q.take with
   | none => []
   | some s => if isNumericString s then [] else ["take must be a valid number"]) ++
  (match q.skip with
   | none => []
   | some s => if isNumericString s then [] else ["skip must be a valid number"])

/-- The take-side of the service's parsing block (`mails.service.ts`
lines 101-111): default `10` when absent; otherwise `parseInt`, then the
`isNaN` check, then the `take <= 0` range check. -/
def parsedTake (o : Option String) : Except ParseError Int :=
  match o with
  | none => .ok 10
  | some s =>
    match jsParseInt s with
    | none => .error (.invalidTake s)
    | some n => if n ≤ 0 then .error (.takeNotPositive n) else .ok n

/-- The skip-side of the service's parsing block (`mails.service.ts`
lines 113-121): default `0` when absent; otherwise `parseInt`, then the
`isNaN` check, then the `skip < 0` range check. -/
def parsedSkip (o : Option String) : Except ParseError Int :=
  match o with
  | none => .ok 0
  | some s =>
    match jsParseInt s with
    | none => .error (.invalidSkip s)
    | some n => if n < 0 then .error (.skipNegative n) else .ok n

/-- The whole parsing `try`-block: `take` is fully checked before `skip`
is looked at, so a take-side error masks any skip-side one. -/
def parseTakeSkip (query : PaginationParamsDto) : Except ParseError (Int × Int) :=
  match parsedTake query.take with
  | .error e => .error e
  | .ok t =>
    match parsedSkip query.skip with
    | .error e => .error e
    | .ok s => .ok (t, s)

/-- Model of `Array.prototype.slice(start, stop)`: negative indices count from the
end, both indices are clamped to `[0, length]`, and the elements with
index in `[start, stop)` are returned (without mutating the array). -/
def jsSlice (l : List α) (start stop : Int) : List α :=
  let len : Int := l.length
  let s := if start < 0 then max (len + start) 0 else min start len
  let e := if stop < 0 then max (len + stop) 0 else min stop len
  (l.take e.toNat).drop s.toNat

/-- Model of `MailsService.getMailPaginated` (`mails.service.ts` lines 93-153).
The parsing `try`-block either yields `(take, skip)` or throws; the
`catch` turns any thrown parse error into
`BadRequestException('Invalid take, skip')`.  Then the slice
`mails.slice(skip, skip + take)` and the total count `mails.length` are
taken and shaped into the response (the remaining two `catch` blocks are
unreachable here).  The module-level `mails` array is the explicit first
argument. -/
def getMailPaginated (mails : List IMail) (query : PaginationParamsDto) :
    Except HttpError GetMailsPaginatedResponseDto :=
  match parseTakeSkip query with
  | .error _ => .error (.badRequest (.single "Invalid take, skip"))
  | .ok (t, s) =>
    let requestedMails := jsSlice mails s (s + t)
    let totalCount := mails.length
    .ok { mails := requestedMails, totalCount := totalCount }

/-- The HTTP pipeline behind `GET /mails`
(`mails.controller.ts` + global `ValidationPipe`): the validator runs
first and a nonempty message list becomes a 400 with the per-field
message array; otherwise the service runs. -/
def getMails (mails : List IMail) (query : PaginationParamsDto) :
    Except HttpError GetMailsPaginatedResponseDto :=
  match validatePaginationParams query with
  | [] => getMailPaginated mails query
  | errs => .error (.badRequest (.fields errs))

/-- Read of the store performed by `mails.slice(...)` in the state-passing
embedding: `Array.prototype.slice` returns a fresh array and leaves the
store untouched. -/
def sliceSt (store : List IMail) (start stop : Int) : List IMail × List IMail :=
  (jsSlice store start stop, store)

/-- Read of the store performed by `mails.length` in the state-passing
embedding. -/
def lengthSt (store : List IMail) : Nat × List IMail :=
  (store.length, store)

/-- State-passing embedding of `getMailPaginated`: every access to the
module-level `mails` array threads the store, so that what the call does
to the store is explicit in the result. -/
def getMailPaginatedSt (store : List IMail) (query : PaginationParamsDto) :
    (Except HttpError GetMailsPaginatedResponseDto) × List IMail :=
  match parseTakeSkip query with
  | .error _ => (.error (.badRequest (.single "Invalid take, skip")), store)
  | .ok (t, s) =>
    let res := sliceSt store s (s + t)
    let res2 := lengthSt res.2
    (.ok { mails := res.1, totalCount := res2.1 }, res2.2)

/-- Decidable equality for `Except`, so that concrete runs of the embedded
endpoint can be checked by `decide`. -/
instance {ε α : Type} [DecidableEq ε] [DecidableEq α] : DecidableEq (Except ε α) :=
  fun x y =>
    match x, y with
    | .ok a, .ok b =>
      if h : a = b then .isTrue (h ▸ rfl) else .isFalse fun hc => h (Except.ok.inj hc)
    | .error a, .error b =>
      if h : a = b then .isTrue (h ▸ rfl) else .isFalse fun hc => h (Except.error.inj hc)
    | .ok _, .error _ => .isFalse fun hc => Except.noConfusion hc
    | .error _, .ok _ => .isFalse fun hc => Except.noConfusion hc

/-- A minimal well-formed mail record with the given id, used to build the
3-record test source of the spec's scenarios. -/
def mkTestMail (i : Int) : IMail :=
  { id := some i
    «from» := { name := "Test User", email := "test.user@example.com" }
    subject := "Test Subject"
    body := "Test body"
    date := "2024-01-01T00:00:00.000Z" }

/-- The 3-record source with ids `[1, 2, 3]` used by the spec's scenarios
A-F and by the unit tests' mock. -/
def mails3 : List IMail := [mkTestMail 1, mkTestMail 2, mkTestMail 3]

/-! ### Helper lemmas -/

/-- A successfully parsed `take` is at least 1: the default is 10, and a
provided value survives the `take <= 0` check. -/
theorem parsedTake_pos (o : Option String) (t : Int) (h : parsedTake o = .ok t) :
    1 ≤ t := by
  unfold parsedTake at h
  split at h
  · injection h with h1; omega
  · split at h
    · cases h
    · split at h
      · cases h
      · injection h with h1; omega

/-- A successfully parsed `skip` is nonnegative: the default is 0, and a
provided value survives the `skip < 0` check. -/
theorem parsedSkip_nonneg (o : Option String) (s : Int) (h : parsedSkip o = .ok s) :
    0 ≤ s := by
  unfold parsedSkip at h
  split at h
  · injection h with h1; omega
  · split at h
    · cases h
    · split at h
      · cases h
      · injection h with h1; omega

/-- Inversion of a successful parse: both sides succeeded with the
recorded values. -/
theorem parseTakeSkip_ok_inv (q : PaginationParamsDto) (t s : Int)
    (h : parseTakeSkip q = .ok (t, s)) :
    parsedTake q.take = .ok t ∧ parsedSkip q.skip = .ok s := by
  unfold parseTakeSkip at h
  cases h1 : parsedTake q.take with
  | error e => rw [h1] at h; cases h
  | ok t' =>
    rw [h1] at h
    cases h2 : parsedSkip q.skip with
    | error e => rw [h2] at h; cases h
    | ok s' =>
      rw [h2] at h
      injection h with h3
      injection h3 with h4 h5
      subst h4; subst h5
      exact ⟨rfl, rfl⟩

/-- The service on a query whose parameters parse. -/
theorem getMailPaginated_of_parse_ok (mails : List IMail) {q : PaginationParamsDto}
    {t s : Int} (hp : parseTakeSkip q = .ok (t, s)) :
    getMailPaginated mails q =
      .ok { mails := jsSlice mails s (s + t), totalCount := mails.length } := by
  unfold getMailPaginated
  rw [hp]

/-- The service on a query whose parsing throws: the `catch` clause
surfaces the one generic message whatever the thrown error was. -/
theorem getMailPaginated_of_parse_err (mails : List IMail) {q : PaginationParamsDto}
    {e : ParseError} (hp : parseTakeSkip q = .error e) :
    getMailPaginated mails q = .error (.badRequest (.single "Invalid take, skip")) := by
  unfold getMailPaginated
  rw [hp]

/-- A `slice(s, s + t)` call with nonnegative arguments is drop-then-take. -/
theorem jsSlice_eq_drop_take (l : List α) (s t : Int) (hs : 0 ≤ s) (ht : 0 ≤ t) :
    jsSlice l s (s + t) = (l.drop s.toNat).take t.toNat := by
  simp only [jsSlice]
  rw [if_neg (show ¬s < 0 by omega), if_neg (show ¬s + t < 0 by omega)]
  have e1 : (min (s + t) (l.length : Int)).toNat = min (s.toNat + t.toNat) l.length := by
    omega
  have e2 : (min s (l.length : Int)).toNat = min s.toNat l.length := by omega
  rw [e1, e2, List.drop_take]
  rcases Nat.le_total s.toNat l.length with h | h
  · rw [Nat.min_eq_left h]
    apply List.take_eq_take.mpr
    simp only [List.length_drop]
    omega
  · rw [Nat.min_eq_right h, List.drop_length, List.drop_eq_nil_of_le h]
    simp

/-- Take-side branch: a provided string parsing to `NaN`. -/
theorem parsedTake_of_nan {s : String} (hp : jsParseInt s = none) :
    parsedTake (some s) = .error (.invalidTake s) := by
  simp only [parsedTake, hp]

/-- Take-side branch: a provided string parsing to a nonpositive value. -/
theorem parsedTake_of_nonpos {s : String} {n : Int} (hp : jsParseInt s = some n)
    (hn : n ≤ 0) : parsedTake (some s) = .error (.takeNotPositive n) := by
  simp only [parsedTake, hp]
  rw [if_pos hn]

/-- Take-side branch: a provided string parsing to a positive value. -/
theorem parsedTake_of_pos {s : String} {n : Int} (hp : jsParseInt s = some n)
    (hn : 0 < n) : parsedTake (some s) = .ok n := by
  simp only [parsedTake, hp]
  rw [if_neg (show ¬n ≤ 0 by omega)]

/-- Skip-side branch: a provided string parsing to `NaN`. -/
theorem parsedSkip_of_nan {s : String} (hp : jsParseInt s = none) :
    parsedSkip (some s) = .error (.invalidSkip s) := by
  simp only [parsedSkip, hp]

/-- Skip-side branch: a provided string parsing to a negative value. -/
theorem parsedSkip_of_neg {s : String} {n : Int} (hp : jsParseInt s = some n)
    (hn : n < 0) : parsedSkip (some s) = .error (.skipNegative n) := by
  simp only [parsedSkip, hp]
  rw [if_pos hn]

/-- Skip-side branch: a provided string parsing to a nonnegative value. -/
theorem parsedSkip_of_nonneg {s : String} {n : Int} (hp : jsParseInt s = some n)
    (hn : 0 ≤ n) : parsedSkip (some s) = .ok n := by
  simp only [parsedSkip, hp]
  rw [if_neg (show ¬n < 0 by omega)]

/-- A take-side error is the whole parse's error. -/
theorem parseTakeSkip_err_take {q : PaginationParamsDto} {e : ParseError}
    (h : parsedTake q.take = .error e) : parseTakeSkip q = .error e := by
  simp only [parseTakeSkip, h]

/-- A skip-side error surfaces when the take side passed. -/
theorem parseTakeSkip_err_skip {q : PaginationParamsDto} {t : Int} {e : ParseError}
    (ht : parsedTake q.take = .ok t) (h : parsedSkip q.skip = .error e) :
    parseTakeSkip q = .error e := by
  simp only [parseTakeSkip, ht, h]

/-- Both sides passing make the parse succeed. -/
theorem parseTakeSkip_ok_of {q : PaginationParamsDto} {t s : Int}
    (ht : parsedTake q.take = .ok t) (hs : parsedSkip q.skip = .ok s) :
    parseTakeSkip q = .ok (t, s) := by
  simp only [parseTakeSkip, ht, hs]

/-- The pipeline runs the service when validation passes. -/
theorem getMails_of_valid {mails : List IMail} {q : PaginationParamsDto}
    (hv : validatePaginationParams q = []) :
    getMails mails q = getMailPaginated mails q := by
  unfold getMails
  rw [hv]

/-! ### The claims -/

/-- C1: for every call whose parameters parse to `take ≥ 1` and
`skip ≥ 0` (absent parameters defaulting), the call succeeds and the
returned list has length `min take (max 0 (totalCount - skip))`, where
`totalCount` is the size of the full source collection (Nat truncated
subtraction realises the `max 0`): a `skip` at or past the end gives an
empty list, and when `take + skip` exceeds the remaining records only the
remaining records are returned, with no error. -/
theorem getMailPaginated_length_eq_min (mails : List IMail) (q : PaginationParamsDto)
    (t s : Int) (hp : parseTakeSkip q = .ok (t, s)) (ht : 1 ≤ t) (hs : 0 ≤ s) :
    ∃ r, getMailPaginated mails q = .ok r ∧
      r.mails.length = min t.toNat (mails.length - s.toNat) := by
  refine ⟨_, getMailPaginated_of_parse_ok mails hp, ?_⟩
  rw [jsSlice_eq_drop_take mails s t hs (by omega)]
  simp [List.length_take, List.length_drop]

/-- Witness for C1: `take="2"`, `skip="1"` on the 3-record source returns
`min 2 (3 - 1) = 2` records. -/
theorem getMailPaginated_length_eq_min_witness :
    ∃ r, getMailPaginated mails3 { take := some "2", skip := some "1" } = .ok r ∧
      r.mails.length = min (2 : Int).toNat (mails3.length - (1 : Int).toNat) :=
  getMailPaginated_length_eq_min mails3 { take := some "2", skip := some "1" } 2 1
    (by decide) (by decide) (by decide)

/-- C2: every successful call reports `totalCount` equal to the size
of the full source collection, whatever `take` and `skip` were. -/
theorem getMailPaginated_totalCount (mails : List IMail) (q : PaginationParamsDto)
    (r : GetMailsPaginatedResponseDto) (h : getMailPaginated mails q = .ok r) :
    r.totalCount = mails.length := by
  cases hp : parseTakeSkip q with
  | error e =>
    rw [getMailPaginated_of_parse_err mails hp] at h
    cases h
  | ok ts =>
    obtain ⟨t, s⟩ := ts
    rw [getMailPaginated_of_parse_ok mails hp] at h
    injection h with h1
    rw [← h1]

/-- Witness for C2: the default call on the 3-record source reports
`totalCount = 3`. -/
theorem getMailPaginated_totalCount_witness :
    ({ mails := mails3, totalCount := 3 } :
        GetMailsPaginatedResponseDto).totalCount = mails3.length :=
  getMailPaginated_totalCount mails3 {} { mails := mails3, totalCount := 3 } (by decide)

/-- C3: a successful call returns exactly the contiguous,
order-preserving window of the source collection that starts at index
`skip` and has at most `take` elements — `(drop skip).take take` — so no
record is reordered, dropped from inside the window, or duplicated. -/
theorem getMailPaginated_slice_eq_drop_take (mails : List IMail)
    (q : PaginationParamsDto) (t s : Int) (hp : parseTakeSkip q = .ok (t, s)) :
    ∃ r, getMailPaginated mails q = .ok r ∧
      r.mails = (mails.drop s.toNat).take t.toNat := by
  obtain ⟨h1, h2⟩ := parseTakeSkip_ok_inv q t s hp
  refine ⟨_, getMailPaginated_of_parse_ok mails hp, ?_⟩
  exact jsSlice_eq_drop_take mails s t (parsedSkip_nonneg _ _ h2)
    (by have := parsedTake_pos _ _ h1; omega)

/-- Witness for C3: `take="2"`, `skip="1"` on the 3-record source returns
the window `(drop 1).take 2`, i.e. the records with ids 2 and 3. -/
theorem getMailPaginated_slice_eq_drop_take_witness :
    ∃ r, getMailPaginated mails3 { take := some "2", skip := some "1" } = .ok r ∧
      r.mails = (mails3.drop (1 : Int).toNat).take (2 : Int).toNat :=
  getMailPaginated_slice_eq_drop_take mails3 { take := some "2", skip := some "1" } 2 1
    (by decide)

/-- C4: an absent `take` behaves exactly like `take = 10`, an absent
`skip` exactly like `skip = 0`, and with both absent the call succeeds
with the first 10 records (fewer when the collection is smaller) and the
full count. -/
theorem getMailPaginated_defaults (mails : List IMail) (tk sk : Option String) :
    getMailPaginated mails { take := none, skip := sk } =
      getMailPaginated mails { take := some "10", skip := sk } ∧
    getMailPaginated mails { take := tk, skip := none } =
      getMailPaginated mails { take := tk, skip := some "0" } ∧
    getMailPaginated mails { take := none, skip := none } =
      .ok { mails := mails.take 10, totalCount := mails.length } := by
  refine ⟨rfl, rfl, ?_⟩
  rw [getMailPaginated_of_parse_ok mails
    (show parseTakeSkip { take := none, skip := none } = .ok (10, 0) from rfl)]
  rw [jsSlice_eq_drop_take mails 0 10 (by omega) (by omega)]
  simp

/-- C9: the service never mutates the source collection (the store
after any call, successful or failing, is the store before), the
state-passing run returns what the pure function returns, and a second
call with the same parameters on the resulting store is identical to the
first call. -/
theorem getMailPaginatedSt_pure (store : List IMail) (q : PaginationParamsDto) :
    (getMailPaginatedSt store q).2 = store ∧
    (getMailPaginatedSt store q).1 = getMailPaginated store q ∧
    getMailPaginatedSt ((getMailPaginatedSt store q).2) q = getMailPaginatedSt store q := by
  cases hp : parseTakeSkip q with
  | error e => simp [getMailPaginatedSt, getMailPaginated, hp]
  | ok ts =>
    obtain ⟨t, s⟩ := ts
    simp [getMailPaginatedSt, getMailPaginated, sliceSt, lengthSt, hp]

/-- C5: an input that passes validation but parses to `take ≤ 0` or
`skip < 0` fails with the single generic range message
`"Invalid take, skip"`, while an input with a non-numeric field fails at
the validation layer with the array of per-field messages — two surfaced
error shapes that are distinct. -/
theorem range_error_distinct_from_field_errors (mails : List IMail)
    (q qBad : PaginationParamsDto)
    (hval : validatePaginationParams q = [])
    (hrange : (∃ s n, q.take = some s ∧ jsParseInt s = some n ∧ n ≤ 0) ∨
              (∃ s n, q.skip = some s ∧ jsParseInt s = some n ∧ n < 0))
    (hbad : validatePaginationParams qBad ≠ []) :
    getMails mails q = .error (.badRequest (.single "Invalid take, skip")) ∧
    getMails mails qBad =
      .error (.badRequest (.fields (validatePaginationParams qBad))) ∧
    ErrMessage.single "Invalid take, skip" ≠
      ErrMessage.fields (validatePaginationParams qBad) := by
  refine ⟨?_, ?_, fun hc => ErrMessage.noConfusion hc⟩
  · have herr : ∃ e, parseTakeSkip q = .error e := by
      rcases hrange with ⟨s, n, hq, hp, hn⟩ | ⟨s, n, hq, hp, hn⟩
      · exact ⟨_, parseTakeSkip_err_take (by rw [hq]; exact parsedTake_of_nonpos hp hn)⟩
      · cases ht : parsedTake q.take with
        | error e => exact ⟨e, parseTakeSkip_err_take ht⟩
        | ok t =>
          exact ⟨_, parseTakeSkip_err_skip ht (by rw [hq]; exact parsedSkip_of_neg hp hn)⟩
    obtain ⟨e, he⟩ := herr
    rw [getMails_of_valid hval]
    exact getMailPaginated_of_parse_err mails he
  · unfold getMails
    cases hv : validatePaginationParams qBad with
    | nil => exact absurd hv hbad
    | cons a l => rfl

/-- Witness for C5: `take="0"` passes validation and draws the single
generic message; `take="invalid"` fails validation and draws the
per-field message array. -/
theorem range_error_distinct_from_field_errors_witness :
    getMails mails3 { take := some "0", skip := none } =
      .error (.badRequest (.single "Invalid take, skip")) ∧
    getMails mails3 { take := some "invalid", skip := none } =
      .error (.badRequest
        (.fields (validatePaginationParams { take := some "invalid", skip := none }))) ∧
    ErrMessage.single "Invalid take, skip" ≠
      ErrMessage.fields (validatePaginationParams { take := some "invalid", skip := none }) :=
  range_error_distinct_from_field_errors mails3
    { take := some "0", skip := none } { take := some "invalid", skip := none }
    (by decide) (Or.inl ⟨"0", 0, rfl, by decide, by decide⟩) (by decide)

/-- Counterexample to C6 as stated: in the call `take="0"`,
`skip="x"` the provided skip string parses to not-a-number, yet the
service fails with the take-side range error — neither
`InvalidParameterError("take")` nor `InvalidParameterError("skip")`. -/
theorem nan_error_masked_by_take_range :
    jsParseInt "x" = none ∧
    parseTakeSkip { take := some "0", skip := some "x" } =
      .error (.takeNotPositive 0) ∧
    isInvalidParamError (.takeNotPositive 0) = false ∧
    getMailPaginated mails3 { take := some "0", skip := some "x" } =
      .error (.badRequest (.single "Invalid take, skip")) := by decide

/-- C6 (amended): a provided `take` parsing to not-a-number always
fails the call with `InvalidParameterError("take")`; a provided `skip`
parsing to not-a-number fails the call with
`InvalidParameterError("skip")` provided the take parameter passed its
checks (a take-side failure wins otherwise); in both cases the surfaced
response is the 400 `"Invalid take, skip"` and no result is returned. -/
theorem nan_params_yield_invalid_parameter_errors (mails : List IMail)
    (q : PaginationParamsDto) (s : String) :
    (q.take = some s → jsParseInt s = none →
      parseTakeSkip q = .error (.invalidTake s) ∧
      getMailPaginated mails q = .error (.badRequest (.single "Invalid take, skip"))) ∧
    (∀ t : Int, parsedTake q.take = .ok t → q.skip = some s → jsParseInt s = none →
      parseTakeSkip q = .error (.invalidSkip s) ∧
      getMailPaginated mails q = .error (.badRequest (.single "Invalid take, skip"))) := by
  constructor
  · intro hq hp
    have h1 : parseTakeSkip q = .error (.invalidTake s) :=
      parseTakeSkip_err_take (by rw [hq]; exact parsedTake_of_nan hp)
    exact ⟨h1, getMailPaginated_of_parse_err mails h1⟩
  · intro t ht hq hp
    have h1 : parseTakeSkip q = .error (.invalidSkip s) :=
      parseTakeSkip_err_skip ht (by rw [hq]; exact parsedSkip_of_nan hp)
    exact ⟨h1, getMailPaginated_of_parse_err mails h1⟩

/-- Witness for amended C6: `take="abc"` errors on the take parameter;
`take="2", skip="zz"` errors on the skip parameter. -/
theorem nan_params_yield_invalid_parameter_errors_witness :
    (parseTakeSkip { take := some "abc", skip := none } = .error (.invalidTake "abc") ∧
      getMailPaginated mails3 { take := some "abc", skip := none } =
        .error (.badRequest (.single "Invalid take, skip"))) ∧
    (parseTakeSkip { take := some "2", skip := some "zz" } = .error (.invalidSkip "zz") ∧
      getMailPaginated mails3 { take := some "2", skip := some "zz" } =
        .error (.badRequest (.single "Invalid take, skip"))) :=
  ⟨(nan_params_yield_invalid_parameter_errors mails3
      { take := some "abc", skip := none } "abc").1 rfl (by decide),
   (nan_params_yield_invalid_parameter_errors mails3
      { take := some "2", skip := some "zz" } "zz").2 2 (by decide) rfl (by decide)⟩

/-- Counterexample to C7 as stated: in the call `take="x"`,
`skip="-1"` the provided skip parses to `-1 < 0`, yet the call fails
with the take-side not-a-number error, not with any range error. -/
theorem skip_range_error_masked_by_take_nan :
    jsParseInt "-1" = some (-1) ∧
    parseTakeSkip { take := some "x", skip := some "-1" } =
      .error (.invalidTake "x") ∧
    isRangeError (.invalidTake "x") = false ∧
    getMailPaginated mails3 { take := some "x", skip := some "-1" } =
      .error (.badRequest (.single "Invalid take, skip")) := by decide

/-- C7 (amended): a provided `take` parsing to an integer `≤ 0`
always fails the call with the take range error (positive, minimum 1); a
provided `skip` parsing to an integer `< 0` fails the call with the skip
range error (positive or zero) provided the take parameter passed its
checks (a take-side failure wins otherwise); in both cases no slice is
returned, only the 400 `"Invalid take, skip"`. -/
theorem range_params_yield_range_errors (mails : List IMail)
    (q : PaginationParamsDto) (s : String) (n : Int) :
    (q.take = some s → jsParseInt s = some n → n ≤ 0 →
      parseTakeSkip q = .error (.takeNotPositive n) ∧
      getMailPaginated mails q = .error (.badRequest (.single "Invalid take, skip"))) ∧
    (∀ t : Int, parsedTake q.take = .ok t → q.skip = some s → jsParseInt s = some n →
      n < 0 →
      parseTakeSkip q = .error (.skipNegative n) ∧
      getMailPaginated mails q = .error (.badRequest (.single "Invalid take, skip"))) := by
  constructor
  · intro hq hp hn
    have h1 : parseTakeSkip q = .error (.takeNotPositive n) :=
      parseTakeSkip_err_take (by rw [hq]; exact parsedTake_of_nonpos hp hn)
    exact ⟨h1, getMailPaginated_of_parse_err mails h1⟩
  · intro t ht hq hp hn
    have h1 : parseTakeSkip q = .error (.skipNegative n) :=
      parseTakeSkip_err_skip ht (by rw [hq]; exact parsedSkip_of_neg hp hn)
    exact ⟨h1, getMailPaginated_of_parse_err mails h1⟩

/-- Witness for amended C7: `take="0"` draws the take range error;
`take="5", skip="-1"` draws the skip range error. -/
theorem range_params_yield_range_errors_witness :
    (parseTakeSkip { take := some "0", skip := none } =
        .error (.takeNotPositive 0) ∧
      getMailPaginated mails3 { take := some "0", skip := none } =
        .error (.badRequest (.single "Invalid take, skip"))) ∧
    (parseTakeSkip { take := some "5", skip := some "-1" } =
        .error (.skipNegative (-1)) ∧
      getMailPaginated mails3 { take := some "5", skip := some "-1" } =
        .error (.badRequest (.single "Invalid take, skip"))) :=
  ⟨(range_params_yield_range_errors mails3
      { take := some "0", skip := none } "0" 0).1 rfl (by decide) (by decide),
   (range_params_yield_range_errors mails3
      { take := some "5", skip := some "-1" } "-1" (-1)).2 5 (by decide) rfl
      (by decide) (by decide)⟩

/-- C10: the string `".5"` passes the numeric-string validator, yet the
service's integer parse of it yields not-a-number, so the request passes
validation and then fails in the service with the generic
`"Invalid take, skip"` message — passing the validator does not
guarantee the service's parse succeeds. -/
theorem validator_pass_service_parse_fail :
    isNumericString ".5" = true ∧
    jsParseInt ".5" = none ∧
    validatePaginationParams { take := some ".5", skip := none } = [] ∧
    getMails mails3 { take := some ".5", skip := none } =
      .error (.badRequest (.single "Invalid take, skip")) := by decide

/-- A digit character is not one of the whitespace characters `parseInt`
strips. -/
theorem digit_not_ws {c : Char} (h : c.isDigit = true) : isJsWhitespace c = false := by
  cases hw : isJsWhitespace c
  · rfl
  · exfalso
    have hm : c ∈ jsWhitespaceChars := of_decide_eq_true hw
    simp only [jsWhitespaceChars, List.mem_cons, List.not_mem_nil, or_false] at hm
    rcases hm with rfl | rfl | rfl | rfl | rfl | rfl <;> exact absurd h (by decide)

/-- A digit character is neither sign character. -/
theorem digit_ne_sign {c : Char} (h : c.isDigit = true) : c ≠ '-' ∧ c ≠ '+' := by
  constructor <;> rintro rfl <;> exact absurd h (by decide)

/-- The digit run before the decimal point is the longest digit prefix. -/
theorem takeWhile_digits (dI rest : List Char) (hd : ∀ c ∈ dI, c.isDigit = true) :
    (dI ++ '.' :: rest).takeWhile Char.isDigit = dI := by
  rw [List.takeWhile_append_of_pos hd, List.takeWhile_cons,
    if_neg (show ¬Char.isDigit '.' = true by decide), List.append_nil]

/-- Dropping the longest digit prefix lands on the decimal point. -/
theorem dropWhile_digits (dI rest : List Char) (hd : ∀ c ∈ dI, c.isDigit = true) :
    (dI ++ '.' :: rest).dropWhile Char.isDigit = '.' :: rest := by
  rw [List.dropWhile_append_of_pos hd, List.dropWhile_cons,
    if_neg (show ¬Char.isDigit '.' = true by decide)]

/-- Applying `parseInt` to a decimal numeric string with a nonempty integer part
truncates: it returns the value of the digits before the point. -/
theorem jsParseInt_decimal (dI dF : List Char) (hne : dI ≠ [])
    (hd : ∀ c ∈ dI, c.isDigit = true) :
    jsParseInt ⟨dI ++ '.' :: dF⟩ = some ((digitsToNat dI : Int)) := by
  obtain ⟨c, cs, rfl⟩ := List.exists_cons_of_ne_nil hne
  have hc : c.isDigit = true := hd c (List.mem_cons_self c cs)
  have h1 : (String.mk ((c :: cs) ++ '.' :: dF)).data.dropWhile isJsWhitespace =
      c :: (cs ++ '.' :: dF) := by
    show (c :: (cs ++ '.' :: dF)).dropWhile isJsWhitespace = c :: (cs ++ '.' :: dF)
    rw [List.dropWhile_cons, if_neg (by rw [digit_not_ws hc]; exact Bool.false_ne_true)]
  have h2 : (c :: (cs ++ '.' :: dF)).takeWhile Char.isDigit = c :: cs := by
    have h3 := takeWhile_digits (c :: cs) dF hd
    rwa [List.cons_append] at h3
  obtain ⟨hm, hp⟩ := digit_ne_sign hc
  simp only [jsParseInt, h1, if_neg hm, if_neg hp, h2, List.isEmpty_cons,
    Bool.false_eq_true, if_false, one_mul]

/-- The validator accepts every decimal numeric string
`digits* '.' digits+`. -/
theorem isNumericString_decimal (dI dF : List Char) (hdI : ∀ c ∈ dI, c.isDigit = true)
    (hne : dF ≠ []) (hdF : ∀ c ∈ dF, c.isDigit = true) :
    isNumericString ⟨dI ++ '.' :: dF⟩ = true := by
  have hdata : (String.mk (dI ++ '.' :: dF)).data = dI ++ '.' :: dF := rfl
  have hsign : ((dI ++ '.' :: dF).head? = some '+' ||
      (dI ++ '.' :: dF).head? = some '-') = false := by
    cases dI with
    | nil => rfl
    | cons c cs =>
      obtain ⟨hm, hp⟩ := digit_ne_sign (hdI c (List.mem_cons_self c cs))
      simp [List.cons_append, hm, hp]
  have hdrop := dropWhile_digits dI dF hdI
  simp only [isNumericString, hdata, hsign, Bool.false_eq_true, if_false, hdrop,
    List.isEmpty_cons, List.head?_cons, List.tail_cons]
  simp only [List.isEmpty_iff, List.all_eq_true, hne, Bool.not_false,
    Bool.true_and, Bool.and_eq_true, decide_eq_true_eq]
  refine ⟨⟨trivial, ?_⟩, hdF⟩
  simp [List.isEmpty_iff, hne]

/-- Counterexample to C8 as stated: `".5"` is a decimal numeric
string — the validation layer accepts it — yet the request with
`take=".5"` is rejected: the service's integer parse yields not-a-number
and the call fails with 400 instead of being truncated. -/
theorem decimal_string_dot5_rejected :
    isNumericString ".5" = true ∧
    validatePaginationParams { take := some ".5", skip := some "1.7" } = [] ∧
    getMails mails3 { take := some ".5", skip := some "1.7" } =
      .error (.badRequest (.single "Invalid take, skip")) := by decide

/-- C8 (amended): every decimal numeric string with a nonempty digit
run before the point is accepted by the validation layer and truncated by
the service's parse to the value of that digit run; when the truncated
`take` is at least 1 (the truncated unsigned `skip` is automatically
`≥ 0`) the request succeeds and returns the corresponding window; in
particular `take="2.5", skip="1.7"` is parsed as `take=2, skip=1` and on
the 3-record source returns the records with ids `[2,3]`. -/
theorem decimal_numeric_strings_truncated (mails : List IMail)
    (tI tF sI sF : List Char)
    (htI : tI ≠ []) (htId : ∀ c ∈ tI, c.isDigit = true)
    (htF : tF ≠ []) (htFd : ∀ c ∈ tF, c.isDigit = true)
    (hsI : sI ≠ []) (hsId : ∀ c ∈ sI, c.isDigit = true)
    (hsF : sF ≠ []) (hsFd : ∀ c ∈ sF, c.isDigit = true)
    (hpos : 1 ≤ digitsToNat tI) :
    validatePaginationParams
      { take := some ⟨tI ++ '.' :: tF⟩, skip := some ⟨sI ++ '.' :: sF⟩ } = [] ∧
    jsParseInt ⟨tI ++ '.' :: tF⟩ = some ((digitsToNat tI : Int)) ∧
    jsParseInt ⟨sI ++ '.' :: sF⟩ = some ((digitsToNat sI : Int)) ∧
    getMails mails { take := some ⟨tI ++ '.' :: tF⟩, skip := some ⟨sI ++ '.' :: sF⟩ } =
      .ok { mails := (mails.drop (digitsToNat sI)).take (digitsToNat tI),
            totalCount := mails.length } ∧
    getMails mails3 { take := some "2.5", skip := some "1.7" } =
      .ok { mails := [mkTestMail 2, mkTestMail 3], totalCount := 3 } := by
  have hvt := isNumericString_decimal tI tF htId htF htFd
  have hvs := isNumericString_decimal sI sF hsId hsF hsFd
  have hpt := jsParseInt_decimal tI tF htI htId
  have hps := jsParseInt_decimal sI sF hsI hsId
  have hval : validatePaginationParams
      { take := some ⟨tI ++ '.' :: tF⟩, skip := some ⟨sI ++ '.' :: sF⟩ } = [] := by
    simp [validatePaginationParams, hvt, hvs]
  refine ⟨hval, hpt, hps, ?_, by decide⟩
  rw [getMails_of_valid hval]
  have hok : parseTakeSkip
      { take := some ⟨tI ++ '.' :: tF⟩, skip := some ⟨sI ++ '.' :: sF⟩ } =
      .ok ((digitsToNat tI : Int), (digitsToNat sI : Int)) :=
    parseTakeSkip_ok_of (parsedTake_of_pos hpt (Int.natCast_pos.mpr (by omega)))
      (parsedSkip_of_nonneg hps (Int.natCast_nonneg _))
  rw [getMailPaginated_of_parse_ok mails hok]
  rw [jsSlice_eq_drop_take mails _ _ (Int.natCast_nonneg _) (Int.natCast_nonneg _)]
  simp

/-- Witness for amended C8: `take="2.5"`, `skip="1.7"` is accepted,
truncated to `take=2, skip=1`, and on the 3-record source returns the
records with ids 2 and 3. -/
theorem decimal_numeric_strings_truncated_witness :
    validatePaginationParams { take := some "2.5", skip := some "1.7" } = [] ∧
    jsParseInt "2.5" = some ((digitsToNat ['2'] : Int)) ∧
    jsParseInt "1.7" = some ((digitsToNat ['1'] : Int)) ∧
    getMails mails3 { take := some "2.5", skip := some "1.7" } =
      .ok { mails := (mails3.drop (digitsToNat ['1'])).take (digitsToNat ['2']),
            totalCount := mails3.length } ∧
    getMails mails3 { take := some "2.5", skip := some "1.7" } =
      .ok { mails := [mkTestMail 2, mkTestMail 3], totalCount := 3 } :=
  decimal_numeric_strings_truncated mails3 ['2'] ['5'] ['1'] ['7']
    (by decide) (by decide) (by decide) (by decide) (by decide) (by decide)
    (by decide) (by decide) (by decide)

end MailsBackend
